import Mathlib

set_option maxHeartbeats 1000000
set_option maxRecDepth 4000

/-!
Verification of the PIOS physical-memory allocator, remote-reference tracker
(kern/mem.c) and trap dispatcher / IDT construction (kern/trap.c), as a
shallow embedding in Lean 4.

Machine pointers into the `pageinfo` array are modelled as `Nat` frame
indices; the NULL pointer is `Option.none`.  The spinlocks of the C code
only serialize the operations, so the sequential model elides them.
Headers of the repository (inc/mem.h, kern/cpu.h, kern/net.h, inc/trap.h)
are not in the source tree; the handful of constants and one-line inline
helpers they define (RRNODE/RRADDR, mem_incref, mem_phys2pi, NET_MAXNODES,
trap vector numbers) are modelled from the spec where noted.
-/

/-- Modelled from the spec: a remote reference packs a `(node, address)`
pair into a `uint32_t`; the accessors `RRNODE` and `RRADDR` (defined in the
missing inc/mem.h) extract the two components.  We model the packed word as
the pair itself; the C value `0` ("no home") is `⟨0, 0⟩`. -/
structure RRef where
  node : Nat
  addr : Nat
deriving DecidableEq

/-- The null remote reference, written `0` in the C code. -/
def RRef.null : RRef := ⟨0, 0⟩

/-- One entry of the `pageinfo` metadata array (struct pageinfo, declared in
the missing inc/mem.h but used field-by-field throughout kern/mem.c).
`free_next`, `homenext` and `homelist` are pointers into the array,
modelled as optional frame indices (`none` = NULL). -/
structure PageInfo where
  refcount : Nat
  free_next : Option Nat
  home : RRef
  homenext : Option Nat
  homelist : Option Nat
  shared : Nat
deriving DecidableEq

/-- The all-zero descriptor produced by the `memset` in mem_init. -/
def zeroPI : PageInfo := ⟨0, none, RRef.null, none, none, 0⟩

/-- Boot-time configuration of the memory subsystem.  These values come
from hardware and the linker (NVRAM sizing, the kernel image symbols
`start`/`end`, `pmap_zero`, NET_MAXNODES), which are external to the four
source files; they are parameters of the model.
  * `npage`     — mem_npage, total page frames;
  * `basePages` — basemem/4096, first frame of the I/O hole;
  * `resEnd`    — ROUNDUP(&mem_pageinfo[mem_npage],4096)/4096, first frame
                  past the metadata array (the reserved range is
                  [basePages, resEnd): hole, kernel image, metadata);
  * `zeroPage`  — frame of pmap_zero (mem_ptr2pi(pmap_zero));
  * `kernStart`/`kernEnd` — frames of `start` and `end-1` (kernel image);
  * `maxNodes`  — NET_MAXNODES, the cluster size. -/
structure MemCfg where
  npage : Nat
  basePages : Nat
  resEnd : Nat
  zeroPage : Nat
  kernStart : Nat
  kernEnd : Nat
  maxNodes : Nat

/-- Mutable state of the memory subsystem: the `mem_pageinfo` array (as a
function from frame index) and the `mem_freelist` head pointer. -/
structure MemState where
  desc : Nat → PageInfo
  freelist : Option Nat

/-- Pointwise update of a function, modelling a store through a pointer. -/
def upd {α β : Type} [DecidableEq α] (f : α → β) (x : α) (v : β) : α → β :=
  fun y => if y = x then v else f y

/-- PAGESIZE from inc/mmu.h (4KB x86 pages; the code divides by 4096). -/
def PAGESIZE : Nat := 4096

/-- Modelled from the spec: `mem_phys2pi` (missing inc/mem.h) maps a
physical address to the descriptor at the same frame number — "the bucket
for a remote address is simply the local descriptor at the same frame
number". -/
def mem_phys2pi (addr : Nat) : Nat := addr / PAGESIZE

/-- mem_alloc (kern/mem.c:98-110).  Removes and returns the head of the
free list.  The stores `p->home = 0; p->shared = 0` in the C code are NOT
guarded by the `if (p != NULL)` test: when the free list is empty they
dereference the NULL pointer.  That fault is modelled as the outer `none`;
a successful call returns `some (some frame, state')`. -/
def mem_alloc (s : MemState) : Option (Option Nat × MemState) :=
  match s.freelist with
  | none => none
  | some i =>
      let s1 : MemState :=
        { desc := upd s.desc i { s.desc i with home := RRef.null, shared := 0 },
          freelist := (s.desc i).free_next }
      some (some i, s1)

/-- mem_free (kern/mem.c:116-123): push the descriptor on the head of the
free list (`pi->free_next = mem_freelist; mem_freelist = pi`). -/
def mem_free (i : Nat) (s : MemState) : MemState :=
  { desc := upd s.desc i { s.desc i with free_next := s.freelist },
    freelist := some i }

/-- Modelled from the spec: `mem_incref` (missing inc/mem.h) increments the
descriptor's reference count. -/
def mem_incref (i : Nat) (s : MemState) : MemState :=
  { s with desc := upd s.desc i { s.desc i with refcount := (s.desc i).refcount + 1 } }

/-- The duplicate-check scan of mem_rrtrack (kern/mem.c:151-155): walk the
home bucket, asserting `RRADDR(spi->home) == addr` and `spi->home != rr` at
every entry.  `false` means a failed assert, or a chain longer than the
fuel (a corrupt, possibly cyclic list — also fatal). -/
def scanChk (d : Nat → PageInfo) (addr : Nat) (rr : RRef) : Nat → Option Nat → Bool
  | _, none => true
  | 0, some _ => false
  | fuel+1, some j =>
      decide ((d j).home.addr = addr) && decide ((d j).home ≠ rr) &&
        scanChk d addr rr fuel (d j).homenext

/-- The first insertion store of mem_rrtrack (kern/mem.c:158):
`pi->home = rr`. -/
def trackD1 (rr : RRef) (pi : Nat) (d : Nat → PageInfo) : Nat → PageInfo :=
  upd d pi { d pi with home := rr }

/-- The second insertion store (kern/mem.c:159):
`pi->homenext = hpi->homelist`, reading after the first store. -/
def trackD2 (rr : RRef) (pi hpi : Nat) (d : Nat → PageInfo) : Nat → PageInfo :=
  upd (trackD1 rr pi d) pi
    { trackD1 rr pi d pi with homenext := (trackD1 rr pi d hpi).homelist }

/-- The third insertion store (kern/mem.c:160): `hpi->homelist = pi`. -/
def trackUpd (rr : RRef) (pi hpi : Nat) (d : Nat → PageInfo) : Nat → PageInfo :=
  upd (trackD2 rr pi hpi d) hpi
    { trackD2 rr pi hpi d hpi with homelist := some pi }

/-- mem_rrtrack (kern/mem.c:128-163).  The C asserts are modelled as
`none` (a panic); a successful call returns the updated state.  Assert
order follows the source: pi in (pageinfo[1], pageinfo[npage]), pi not the
zero page, pi outside the kernel image, node valid, bucket index in range,
then the duplicate scan; finally the three insertion stores
`pi->home = rr; pi->homenext = hpi->homelist; hpi->homelist = pi`
(trackD1, trackD2, trackUpd). -/
def mem_rrtrack (cfg : MemCfg) (rr : RRef) (pi : Nat) (s : MemState) : Option MemState :=
  if ¬(1 < pi ∧ pi < cfg.npage) then none
  else if pi = cfg.zeroPage then none
  else if ¬(pi < cfg.kernStart ∨ cfg.kernEnd < pi) then none
  else if ¬(0 < rr.node ∧ rr.node ≤ cfg.maxNodes) then none
  else if ¬(1 < mem_phys2pi rr.addr ∧ mem_phys2pi rr.addr < cfg.npage) then none
  else if scanChk s.desc rr.addr rr cfg.npage ((s.desc (mem_phys2pi rr.addr)).homelist) then
    some { s with desc := trackUpd rr pi (mem_phys2pi rr.addr) s.desc }
  else none

/-- The search loop of mem_rrlookup (kern/mem.c:182-190): walk the bucket;
assert `RRADDR(pi->home) == addr` at each entry; stop at the first entry
whose `home` equals `rr`.  Outer `none` = failed assert or fuel exhausted;
`some none` = NULL (NotFound); `some (some j)` = hit at frame `j`. -/
def lookupScan (d : Nat → PageInfo) (addr : Nat) (rr : RRef) : Nat → Option Nat → Option (Option Nat)
  | _, none => some none
  | 0, some _ => none
  | fuel+1, some j =>
      if (d j).home.addr ≠ addr then none
      else if (d j).home = rr then some (some j)
      else lookupScan d addr rr fuel (d j).homenext

/-- mem_rrlookup (kern/mem.c:169-194): on a hit the reference count is
incremented (mem_incref) before the pointer is returned; on a miss the
state is returned untouched together with NULL. -/
def mem_rrlookup (cfg : MemCfg) (rr : RRef) (s : MemState) : Option (Option Nat × MemState) :=
  if ¬(0 < rr.node ∧ rr.node ≤ cfg.maxNodes) then none
  else if ¬(1 < mem_phys2pi rr.addr ∧ mem_phys2pi rr.addr < cfg.npage) then none
  else
    match lookupScan s.desc rr.addr rr cfg.npage ((s.desc (mem_phys2pi rr.addr)).homelist) with
    | none => none
    | some none => some (none, s)
    | some (some j) => some (some j, mem_incref j s)

/-- One iteration of the mem_init loop (kern/mem.c:70-81), acting on the
state `(mem_pageinfo, mem_freelist, tail)` where `tail` identifies the
descriptor whose `free_next` the C tail pointer `freetail` currently
addresses (`none` while `freetail == &mem_freelist`).  A page is threaded
iff `i < basemem/4096 || i >= resEnd`; threading writes
`mem_pageinfo[i].refcount = 0` and then `*freetail = &mem_pageinfo[i]`. -/
def initStep (cfg : MemCfg) (st : (Nat → PageInfo) × Option Nat × Option Nat) (i : Nat) :
    (Nat → PageInfo) × Option Nat × Option Nat :=
  if i < cfg.basePages ∨ cfg.resEnd ≤ i then
    let d1 := upd st.1 i { st.1 i with refcount := 0 }
    match st.2.2 with
    | none => (d1, some i, some i)
    | some t => (upd d1 t { d1 t with free_next := some i }, st.2.1, some i)
  else st

/-- The mem_init threading loop (kern/mem.c:70-81): the `memset`-zeroed
array and NULL head/tail pointers, folded through i = 2 .. npage-1. -/
def initFold (cfg : MemCfg) : (Nat → PageInfo) × Option Nat × Option Nat :=
  (List.range' 2 (cfg.npage - 2)).foldl (initStep cfg) (fun _ => zeroPI, none, none)

/-- mem_init (kern/mem.c:36-85): zero the metadata array (`memset`), run
the threading loop for i = 2 .. npage-1, then null-terminate with
`*freetail = NULL` (a store to `mem_freelist` if the list is still empty,
else to the last threaded descriptor's `free_next`). -/
def mem_init (cfg : MemCfg) : MemState :=
  match (initFold cfg).2.2 with
  | none => { desc := (initFold cfg).1, freelist := (initFold cfg).2.1 }
  | some t =>
      { desc := upd (initFold cfg).1 t { (initFold cfg).1 t with free_next := none },
        freelist := (initFold cfg).2.1 }

/-- The frames mem_init threads onto the free list, in loop order. -/
def freeIdxs (cfg : MemCfg) : List Nat :=
  (List.range' 2 (cfg.npage - 2)).filter (fun i => decide (i < cfg.basePages ∨ cfg.resEnd ≤ i))

/-- `Seg d h l e`: starting from pointer `h` and following `free_next`
links in `d`, one traverses exactly the frames `l` and ends at pointer
`e`.  `Seg d h l none` says `h` heads a NULL-terminated list `l`. -/
def Seg (d : Nat → PageInfo) : Option Nat → List Nat → Option Nat → Prop
  | h, [], e => h = e
  | h, i :: l, e => h = some i ∧ Seg d ((d i).free_next) l e

/-- `HSeg d h l`: from pointer `h`, following `homenext` links in `d`, one
traverses exactly the frames `l` and reaches NULL (a home bucket chain). -/
def HSeg (d : Nat → PageInfo) : Option Nat → List Nat → Prop
  | h, [] => h = none
  | h, j :: l => h = some j ∧ HSeg d ((d j).homenext) l

/-- Fuel-bounded functional extraction of the free list, for evaluating
concrete states: `some l` iff the chain reaches NULL within `fuel` steps. -/
def chainOf (d : Nat → PageInfo) : Nat → Option Nat → Option (List Nat)
  | _, none => some []
  | 0, some _ => none
  | fuel+1, some i => (chainOf d fuel ((d i).free_next)).map (fun l => i :: l)

/-- Reachability by the allocate/free interface, from the initialized
store (claim C3's state space).  `free` is applied, as the callers'
contract requires, to an in-range descriptor that is not currently on the
free list and whose reference count has reached zero. -/
inductive Reach (cfg : MemCfg) : MemState → Prop
  | init : Reach cfg (mem_init cfg)
  | alloc {s s1 : MemState} {i : Nat} :
      Reach cfg s → mem_alloc s = some (some i, s1) → Reach cfg s1
  | free {s : MemState} {i : Nat} {l : List Nat} :
      Reach cfg s → Seg s.desc s.freelist l none → i ∉ l →
      2 ≤ i → i < cfg.npage → (s.desc i).refcount = 0 →
      Reach cfg (mem_free i s)

/-! ### Trap dispatch (kern/trap.c) -/

/-- Trap vector numbers.  Modelled from the spec: inc/trap.h is not in the
source tree; the exception vectors are the architecturally fixed x86 ones,
T_IRQ0 is the base of the hardware-interrupt block, and T_SYSCALL and
T_LTIMER are the PIOS software/system vectors mentioned by the spec. -/
def T_DIVIDE : Nat := 0
def T_DEBUG : Nat := 1
def T_NMI : Nat := 2
def T_BRKPT : Nat := 3
def T_OFLOW : Nat := 4
def T_BOUND : Nat := 5
def T_ILLOP : Nat := 6
def T_DEVICE : Nat := 7
def T_DBLFLT : Nat := 8
def T_TSS : Nat := 10
def T_SEGNP : Nat := 11
def T_STACK : Nat := 12
def T_GPFLT : Nat := 13
def T_PGFLT : Nat := 14
def T_FPERR : Nat := 16
def T_ALIGN : Nat := 17
def T_MCHK : Nat := 18
def T_SIMD : Nat := 19
def T_SECEV : Nat := 20
def T_IRQ0 : Nat := 32
def IRQ_KBD : Nat := 1
def IRQ_SERIAL : Nat := 4
def IRQ_SPURIOUS : Nat := 7
def T_SYSCALL : Nat := 48
def T_LTIMER : Nat := 49

/-- Kernel code segment selector CPU_GDT_KCODE (missing kern/cpu.h);
its value is irrelevant to the claims. -/
def CPU_GDT_KCODE : Nat := 8

/-- The trap entry stubs declared `extern` in trap_init_idt; their machine
addresses are link-time symbols, so a gate's target is modelled by name. -/
inductive Handler where
  | tdivide | tdebug | tnmi | tbrkpt | toflow | tbound | tillop
  | tdblflt | ttss | tsegnp | tstack | tgpflt | tpgflt
  | tfperr | talign | tmchk | tsimd | tsecev
  | tirq0 | tirqspur | tirqkbd | tirqser | tirq2 | tirq3
  | tirq5 | tirq6 | tirq8 | tirq9 | tirq10 | tirq11 | tirq12
  | tirq13 | tirq14 | tirq15 | tsystem | tltimer
deriving DecidableEq

/-- An IDT gate as written by SETGATE(gate, istrap, sel, off, dpl)
(inc/mmu.h): trap/interrupt flavour, code selector, target, privilege. -/
structure Gatedesc where
  istrap : Bool
  sel : Nat
  off : Handler
  dpl : Nat
deriving DecidableEq

/-- SETGATE on the 256-entry `idt[]`: marks the entry present (`some`). -/
def setgate (t : Fin 256 → Option Gatedesc) (v : Fin 256)
    (istrap : Bool) (sel : Nat) (off : Handler) (dpl : Nat) :
    Fin 256 → Option Gatedesc :=
  upd t v (some ⟨istrap, sel, off, dpl⟩)

/-- The SETGATE calls of trap_init_idt (kern/trap.c:41-96) in source
order: (vector, gate written).  Every call passes istrap = 0 and the
kernel code selector.  Note the source wires `&tdivide`, not a tdevice
stub, into T_DEVICE. -/
def idtEntries : List (Fin 256 × Gatedesc) :=
  [ (⟨T_DIVIDE, by decide⟩, ⟨false, CPU_GDT_KCODE, .tdivide, 0⟩),
    (⟨T_DEBUG, by decide⟩, ⟨false, CPU_GDT_KCODE, .tdebug, 0⟩),
    (⟨T_NMI, by decide⟩, ⟨false, CPU_GDT_KCODE, .tnmi, 0⟩),
    (⟨T_BRKPT, by decide⟩, ⟨false, CPU_GDT_KCODE, .tbrkpt, 3⟩),
    (⟨T_OFLOW, by decide⟩, ⟨false, CPU_GDT_KCODE, .toflow, 3⟩),
    (⟨T_BOUND, by decide⟩, ⟨false, CPU_GDT_KCODE, .tbound, 0⟩),
    (⟨T_ILLOP, by decide⟩, ⟨false, CPU_GDT_KCODE, .tillop, 0⟩),
    (⟨T_DEVICE, by decide⟩, ⟨false, CPU_GDT_KCODE, .tdivide, 0⟩),
    (⟨T_DBLFLT, by decide⟩, ⟨false, CPU_GDT_KCODE, .tdblflt, 0⟩),
    (⟨T_TSS, by decide⟩, ⟨false, CPU_GDT_KCODE, .ttss, 0⟩),
    (⟨T_SEGNP, by decide⟩, ⟨false, CPU_GDT_KCODE, .tsegnp, 0⟩),
    (⟨T_STACK, by decide⟩, ⟨false, CPU_GDT_KCODE, .tstack, 0⟩),
    (⟨T_GPFLT, by decide⟩, ⟨false, CPU_GDT_KCODE, .tgpflt, 0⟩),
    (⟨T_PGFLT, by decide⟩, ⟨false, CPU_GDT_KCODE, .tpgflt, 0⟩),
    (⟨T_FPERR, by decide⟩, ⟨false, CPU_GDT_KCODE, .tfperr, 0⟩),
    (⟨T_ALIGN, by decide⟩, ⟨false, CPU_GDT_KCODE, .talign, 0⟩),
    (⟨T_MCHK, by decide⟩, ⟨false, CPU_GDT_KCODE, .tmchk, 0⟩),
    (⟨T_SIMD, by decide⟩, ⟨false, CPU_GDT_KCODE, .tsimd, 0⟩),
    (⟨T_SECEV, by decide⟩, ⟨false, CPU_GDT_KCODE, .tsecev, 0⟩),
    (⟨T_IRQ0, by decide⟩, ⟨false, CPU_GDT_KCODE, .tirq0, 0⟩),
    (⟨T_IRQ0 + IRQ_KBD, by decide⟩, ⟨false, CPU_GDT_KCODE, .tirqkbd, 0⟩),
    (⟨T_IRQ0 + IRQ_SERIAL, by decide⟩, ⟨false, CPU_GDT_KCODE, .tirqser, 0⟩),
    (⟨T_IRQ0 + IRQ_SPURIOUS, by decide⟩, ⟨false, CPU_GDT_KCODE, .tirqspur, 0⟩),
    (⟨T_IRQ0 + 2, by decide⟩, ⟨false, CPU_GDT_KCODE, .tirq2, 0⟩),
    (⟨T_IRQ0 + 3, by decide⟩, ⟨false, CPU_GDT_KCODE, .tirq3, 0⟩),
    (⟨T_IRQ0 + 5, by decide⟩, ⟨false, CPU_GDT_KCODE, .tirq5, 0⟩),
    (⟨T_IRQ0 + 6, by decide⟩, ⟨false, CPU_GDT_KCODE, .tirq6, 0⟩),
    (⟨T_IRQ0 + 8, by decide⟩, ⟨false, CPU_GDT_KCODE, .tirq8, 0⟩),
    (⟨T_IRQ0 + 9, by decide⟩, ⟨false, CPU_GDT_KCODE, .tirq9, 0⟩),
    (⟨T_IRQ0 + 10, by decide⟩, ⟨false, CPU_GDT_KCODE, .tirq10, 0⟩),
    (⟨T_IRQ0 + 11, by decide⟩, ⟨false, CPU_GDT_KCODE, .tirq11, 0⟩),
    (⟨T_IRQ0 + 12, by decide⟩, ⟨false, CPU_GDT_KCODE, .tirq12, 0⟩),
    (⟨T_IRQ0 + 13, by decide⟩, ⟨false, CPU_GDT_KCODE, .tirq13, 0⟩),
    (⟨T_IRQ0 + 14, by decide⟩, ⟨false, CPU_GDT_KCODE, .tirq14, 0⟩),
    (⟨T_IRQ0 + 15, by decide⟩, ⟨false, CPU_GDT_KCODE, .tirq15, 0⟩),
    (⟨T_SYSCALL, by decide⟩, ⟨false, CPU_GDT_KCODE, .tsystem, 3⟩),
    (⟨T_LTIMER, by decide⟩, ⟨false, CPU_GDT_KCODE, .tltimer, 0⟩) ]

/-- trap_init_idt: the statically zeroed `idt[256]` (all entries absent)
after the SETGATE sequence, applied in source order. -/
def trap_idt : Fin 256 → Option Gatedesc :=
  idtEntries.foldl (fun t e => setgate t e.1 e.2.istrap e.2.sel e.2.off e.2.dpl) (fun _ => none)

/-- The two trap-frame fields the dispatcher trap() reads: the trap number
and the saved code segment (whose low two bits give the privilege level).
The remaining fields of the C trapframe are not consulted by trap(). -/
structure Trapframe where
  trapno : Nat
  cs : Nat
deriving DecidableEq

/-- Per-dispatch environment of trap():
  * `recover`        — cpu_cur()->recover != NULL;
  * `pfResolved`     — modelled from the spec: whether pmap_pagefault
                       (excluded VM collaborator) resolves the fault and
                       resumes itself instead of returning;
  * `syscallReturns` — whether the syscall() collaborator returns to the
                       dispatcher (the `break` then falls through);
  * `homeNode`       — RRNODE(proc_cur()->home);
  * `netNode`        — net_node, this node's identifier;
  * `e100irq`        — e100_irq, the network device's registered IRQ. -/
structure TrapCtx where
  recover : Bool
  pfResolved : Bool
  syscallReturns : Bool
  homeNode : Nat
  netNode : Nat
  e100irq : Nat

/-- `tf->cs & 3` — nonzero low bits mean the trap came from user mode. -/
def userCS (cs : Nat) : Bool := cs % 4 != 0

/-- The observable actions of one run of trap(), in program order. -/
inductive Act where
  | pmapPagefault | recoverHook | sysc | netTick | lapicEoi | procYield
  | trapRet | kbdIntr | serialIntr | spuriousMsg | e100Intr
  | netMigrate (node : Nat) | procRet | panicked
deriving DecidableEq

/-- Code after the switch in trap() (kern/trap.c:230-254): the dynamic
e100 IRQ check, then user-mode reflection (migrate if the process's home
node is not this node, else proc_ret(tf, -1)), else the fatal path. -/
def afterSwitch (tf : Trapframe) (cx : TrapCtx) : List Act :=
  if tf.trapno = T_IRQ0 + cx.e100irq then [.e100Intr, .lapicEoi, .trapRet]
  else if userCS tf.cs then
    if cx.homeNode ≠ cx.netNode then [.netMigrate cx.homeNode]
    else [.procRet]
  else [.panicked]

/-- The switch on tf->trapno (kern/trap.c:203-228).  The T_SYSCALL case
ends in `break`, so if syscall() returns, control falls through to the
code after the switch; every other recognized case ends in trap_return.
The timer yields only a user-mode context (`if (tf->cs & 3)`). -/
def switchPart (tf : Trapframe) (cx : TrapCtx) : List Act :=
  if tf.trapno = T_SYSCALL then
    .sysc :: (if cx.syscallReturns then afterSwitch tf cx else [])
  else if tf.trapno = T_LTIMER then
    .netTick :: .lapicEoi :: (if userCS tf.cs then [.procYield] else [.trapRet])
  else if tf.trapno = T_IRQ0 + IRQ_KBD then [.kbdIntr, .lapicEoi, .trapRet]
  else if tf.trapno = T_IRQ0 + IRQ_SERIAL then [.lapicEoi, .serialIntr, .trapRet]
  else if tf.trapno = T_IRQ0 + IRQ_SPURIOUS then [.spuriousMsg, .trapRet]
  else afterSwitch tf cx

/-- trap() (kern/trap.c:177-255) as the ordered trace of its actions.
A page fault is first offered to pmap_pagefault, which either resumes
execution itself (`pfResolved`, ending the trace) or returns; then the
recovery hook, if installed, is invoked — the hook resumes via
trap_return and does not return to the dispatcher (spec §4.4); then the
trap-number switch and the post-switch routing. -/
def trapTrace (tf : Trapframe) (cx : TrapCtx) : List Act :=
  let pf : List Act := if tf.trapno = T_PGFLT then [.pmapPagefault] else []
  if tf.trapno = T_PGFLT ∧ cx.pfResolved = true then pf
  else pf ++ (if cx.recover = true then [.recoverHook] else switchPart tf cx)

/-! ### Concrete instances for evaluating the model -/

/-- A small concrete configuration for running the model on explicit
states: 8 frames; base memory covers frames [0, 4); reserved range
[4, 6) (kernel image in frames 4..5, pmap_zero in frame 4, metadata
ending at frame 6); 2 cluster nodes.  mem_init threads frames
2, 3, 6, 7. -/
def cfgW : MemCfg := ⟨8, 4, 6, 4, 4, 5, 2⟩

/-- The state after mem_init on cfgW followed by one mem_alloc (which
hands out frame 2, the free-list head). -/
def allocOne : MemState :=
  match mem_alloc (mem_init cfgW) with
  | some (_, s1) => s1
  | none => mem_init cfgW

/-- A state whose free-list head descriptor still carries a home
reference, to observe mem_alloc writing the head's fields. -/
def sC4 : MemState :=
  { desc := fun j => if j = 2 then { zeroPI with home := ⟨1, 12288⟩ } else zeroPI,
    freelist := some 2 }

/-- sC4 after mem_alloc. -/
def sC4After : MemState :=
  match mem_alloc sC4 with
  | some (_, s1) => s1
  | none => sC4

/-- A concrete remote reference: node 1, remote physical address 3*4096,
whose home bucket is frame 3. -/
def rrW : RRef := ⟨1, 12288⟩

/-- mem_init cfgW with rrW tracked on frame 2. -/
def sTr : MemState :=
  match mem_rrtrack cfgW rrW 2 (mem_init cfgW) with
  | some s1 => s1
  | none => mem_init cfgW

/-- The empty-free-list state that mem_check drives mem_alloc into:
it steals the list (`mem_freelist = 0`) and calls mem_alloc
(kern/mem.c:233-237). -/
def emptyFL : MemState := { desc := fun _ => zeroPI, freelist := none }

/-! ### Helper lemmas: pointwise updates and chain segments -/

lemma upd_same {α β : Type} [DecidableEq α] (f : α → β) (x : α) (v : β) :
    upd f x v x = v := by
  simp [upd]

lemma upd_ne {α β : Type} [DecidableEq α] (f : α → β) (x : α) (v : β) {y : α}
    (h : y ≠ x) : upd f x v y = f y := by
  simp [upd, h]

lemma upd_id {α β : Type} [DecidableEq α] (f : α → β) (x : α) :
    upd f x (f x) = f := by
  funext y
  by_cases h : y = x
  · simp [upd, h]
  · simp [upd, h]

lemma seg_congr {d d2 : Nat → PageInfo} :
    ∀ {l : List Nat} {h e : Option Nat},
      (∀ j ∈ l, (d2 j).free_next = (d j).free_next) → Seg d h l e → Seg d2 h l e := by
  intro l
  induction l with
  | nil => intro h e _ hs; exact hs
  | cons i t ih =>
      intro h e hag hs
      obtain ⟨h1, h2⟩ := hs
      refine ⟨h1, ?_⟩
      rw [hag i (by simp)]
      exact ih (fun j hj => hag j (by simp [hj])) h2

lemma seg_append {d : Nat → PageInfo} :
    ∀ {l1 l2 : List Nat} {h m e : Option Nat},
      Seg d h l1 m → Seg d m l2 e → Seg d h (l1 ++ l2) e := by
  intro l1
  induction l1 with
  | nil => intro l2 h m e h1 h2; cases h1; exact h2
  | cons i t ih =>
      intro l2 h m e h1 h2
      obtain ⟨ha, hb⟩ := h1
      exact ⟨ha, ih hb h2⟩

lemma mem_of_getLastQ {l : List Nat} {t : Nat} (h : l.getLast? = some t) : t ∈ l := by
  induction l with
  | nil => simp at h
  | cons x xs ih =>
      cases xs with
      | nil => simp at h; simp [h]
      | cons y ys =>
          rw [List.getLast?_cons_cons] at h
          exact List.mem_cons_of_mem x (ih h)

lemma seg_last_none {d : Nat → PageInfo} :
    ∀ {l : List Nat} {h : Option Nat} {t : Nat},
      Seg d h l none → l.getLast? = some t → (d t).free_next = none := by
  intro l
  induction l with
  | nil => intro h t _ hl; simp at hl
  | cons x xs ih =>
      intro h t hs hl
      obtain ⟨h1, h2⟩ := hs
      cases xs with
      | nil =>
          simp at hl
          subst hl
          exact h2
      | cons y ys =>
          rw [List.getLast?_cons_cons] at hl
          exact ih h2 hl

lemma seg_extend {d : Nat → PageInfo} (i : Nat) :
    ∀ {l : List Nat} {h : Option Nat} {t : Nat} (v : PageInfo),
      v.free_next = some i → l.Nodup → l.getLast? = some t → Seg d h l none →
      Seg (upd d t v) h l (some i) := by
  intro l
  induction l with
  | nil => intro h t v _ _ hl _; simp at hl
  | cons x xs ih =>
      intro h t v hv hnd hl hs
      obtain ⟨h1, h2⟩ := hs
      cases xs with
      | nil =>
          simp at hl
          subst hl
          refine ⟨h1, ?_⟩
          rw [upd_same]
          simpa [Seg] using hv
      | cons y ys =>
          rw [List.getLast?_cons_cons] at hl
          have hxne : x ≠ t := by
            intro hx
            subst hx
            exact (List.nodup_cons.mp hnd).1 (mem_of_getLastQ hl)
          refine ⟨h1, ?_⟩
          rw [upd_ne d t v hxne]
          exact ih v hv (List.nodup_cons.mp hnd).2 hl h2

lemma seg_det {d : Nat → PageInfo} :
    ∀ {l1 l2 : List Nat} {h : Option Nat},
      Seg d h l1 none → Seg d h l2 none → l1 = l2 := by
  intro l1
  induction l1 with
  | nil =>
      intro l2 h h1 h2
      cases h1
      cases l2 with
      | nil => rfl
      | cons y ys => obtain ⟨hy, _⟩ := h2; exact absurd hy (by simp)
  | cons x xs ih =>
      intro l2 h h1 h2
      obtain ⟨hx, hxs⟩ := h1
      cases l2 with
      | nil =>
          have hn : h = none := h2
          rw [hx] at hn
          exact absurd hn (by simp)
      | cons y ys =>
          obtain ⟨hy, hys⟩ := h2
          rw [hx] at hy
          have : y = x := by injection hy.symm
          subst this
          rw [ih hxs hys]

/-- Record-update identity: rewriting a zero refcount with zero. -/
lemma pi_refcount_id (p : PageInfo) (h : p.refcount = 0) :
    { p with refcount := 0 } = p := by
  cases p
  simp_all

/-- Record-update identity: rewriting a NULL free_next with NULL. -/
lemma pi_freenext_id (p : PageInfo) (h : p.free_next = none) :
    { p with free_next := none } = p := by
  cases p
  simp_all

/-- The loop of mem_init, stated as an invariant of the fold: starting
from a well-formed tail-threaded prefix `B`, processing `L` appends
exactly the elements of `L` passing the reserved-range test. -/
lemma initLoop_inv (cfg : MemCfg) :
    ∀ (L : List Nat) (d : Nat → PageInfo) (hd tl : Option Nat) (B : List Nat),
      Seg d hd B none → tl = B.getLast? → B.Nodup →
      (∀ j, j ∉ B → d j = zeroPI) →
      L.Nodup → (∀ i ∈ L, i ∉ B) →
      Seg (L.foldl (initStep cfg) (d, hd, tl)).1 (L.foldl (initStep cfg) (d, hd, tl)).2.1
        (B ++ L.filter (fun i => decide (i < cfg.basePages ∨ cfg.resEnd ≤ i))) none ∧
      (L.foldl (initStep cfg) (d, hd, tl)).2.2
        = (B ++ L.filter (fun i => decide (i < cfg.basePages ∨ cfg.resEnd ≤ i))).getLast? ∧
      (B ++ L.filter (fun i => decide (i < cfg.basePages ∨ cfg.resEnd ≤ i))).Nodup ∧
      (∀ j, j ∉ B ++ L.filter (fun i => decide (i < cfg.basePages ∨ cfg.resEnd ≤ i)) →
        (L.foldl (initStep cfg) (d, hd, tl)).1 j = zeroPI) := by
  intro L
  induction L with
  | nil =>
      intro d hd tl B hseg htl hnd hpure _ _
      simp only [List.foldl_nil, List.filter_nil, List.append_nil]
      exact ⟨hseg, htl, hnd, hpure⟩
  | cons i L2 ih =>
      intro d hd tl B hseg htl hnd hpure hLnd hLB
      have hiB : i ∉ B := hLB i (by simp)
      have hL2nd : L2.Nodup := (List.nodup_cons.mp hLnd).2
      have hiL2 : i ∉ L2 := (List.nodup_cons.mp hLnd).1
      have hL2B : ∀ x ∈ L2, x ∉ B := fun x hx => hLB x (by simp [hx])
      rw [List.foldl_cons]
      by_cases hcond : i < cfg.basePages ∨ cfg.resEnd ≤ i
      · -- the page is threaded
        have hdi : d i = zeroPI := hpure i hiB
        have hrc : { d i with refcount := 0 } = d i :=
          pi_refcount_id (d i) (by rw [hdi]; rfl)
        have hupd : upd d i { d i with refcount := 0 } = d := by
          rw [hrc]; exact upd_id d i
        have hfz : (d i).free_next = none := by rw [hdi]; rfl
        rw [List.filter_cons_of_pos (by simpa using hcond)]
        cases hB : B.getLast? with
        | none =>
            have hBnil : B = [] := by
              cases B with
              | nil => rfl
              | cons b bs => simp [List.getLast?_eq_getLast] at hB
            subst hBnil
            have hstep : initStep cfg (d, hd, tl) i = (d, some i, some i) := by
              unfold initStep
              rw [if_pos hcond]
              simp only [htl, hB]
              rw [hupd]
            rw [hstep]
            have hseg1 : Seg d (some i) [i] none := ⟨rfl, hfz⟩
            have := ih d (some i) (some i) [i] hseg1 (by simp) (by simp)
              (fun j _ => hpure j (by simp)) hL2nd
              (fun x hx => by
                simp only [List.mem_singleton]
                exact fun hxi => hiL2 (hxi ▸ hx))
            simpa using this
        | some t =>
            have htB : t ∈ B := mem_of_getLastQ hB
            have hit : i ≠ t := fun hx => hiB (hx ▸ htB)
            have hstep : initStep cfg (d, hd, tl) i
                = (upd d t { d t with free_next := some i }, hd, some i) := by
              unfold initStep
              rw [if_pos hcond]
              simp only [htl, hB]
              rw [hupd]
            rw [hstep]
            have hd2i : upd d t { d t with free_next := some i } i = d i :=
              upd_ne d t _ hit
            have hseg2 : Seg (upd d t { d t with free_next := some i }) hd (B ++ [i]) none := by
              refine seg_append (seg_extend i _ rfl hnd hB hseg) ?_
              exact ⟨rfl, by rw [hd2i]; exact hfz⟩
            have hnd2 : (B ++ [i]).Nodup := by
              simp [List.nodup_append, hnd, hiB]
            have hpure2 : ∀ j, j ∉ B ++ [i] → upd d t { d t with free_next := some i } j = zeroPI := by
              intro j hj
              have hjB : j ∉ B := fun hx => hj (by simp [hx])
              have hjt : j ≠ t := fun hx => hjB (hx ▸ htB)
              rw [upd_ne d t _ hjt]
              exact hpure j hjB
            have hL2B2 : ∀ x ∈ L2, x ∉ B ++ [i] := by
              intro x hx
              simp only [List.mem_append, List.mem_singleton]
              rintro (hxB | hxi)
              · exact hL2B x hx hxB
              · exact hiL2 (hxi ▸ hx)
            have := ih (upd d t { d t with free_next := some i }) hd (some i) (B ++ [i])
              hseg2 (by simp) hnd2 hpure2 hL2nd hL2B2
            simpa [List.append_assoc] using this
      · -- reserved page: skipped
        have hstep : initStep cfg (d, hd, tl) i = (d, hd, tl) := by
          unfold initStep
          rw [if_neg hcond]
        rw [hstep, List.filter_cons_of_neg (by simpa using hcond)]
        exact ih d hd tl B hseg htl hnd hpure hL2nd hL2B

/-- What mem_init produces: the free list is exactly `freeIdxs cfg`
(duplicate-free), and every descriptor off the list is untouched zero. -/
lemma mem_init_spec (cfg : MemCfg) :
    Seg (mem_init cfg).desc (mem_init cfg).freelist (freeIdxs cfg) none ∧
    (freeIdxs cfg).Nodup ∧
    (∀ j, j ∉ freeIdxs cfg → (mem_init cfg).desc j = zeroPI) := by
  have hnd : (List.range' 2 (cfg.npage - 2)).Nodup :=
    List.nodup_range' _ _ _ Nat.one_pos
  have h := initLoop_inv cfg (List.range' 2 (cfg.npage - 2)) (fun _ => zeroPI) none none []
    (by exact rfl) (by simp) (by simp) (fun j _ => rfl) hnd (by simp)
  simp only [List.nil_append] at h
  obtain ⟨h1, h2, h3, h4⟩ := h
  cases hc : (initFold cfg).2.2 with
  | none =>
      have hmi : mem_init cfg
          = { desc := (initFold cfg).1, freelist := (initFold cfg).2.1 } := by
        unfold mem_init
        rw [hc]
      rw [hmi]
      exact ⟨h1, h3, h4⟩
  | some t =>
      have hmi : mem_init cfg
          = { desc := upd (initFold cfg).1 t { (initFold cfg).1 t with free_next := none },
              freelist := (initFold cfg).2.1 } := by
        unfold mem_init
        rw [hc]
      have hlast : (freeIdxs cfg).getLast? = some t := by
        have h2a : (initFold cfg).2.2 = (freeIdxs cfg).getLast? := h2
        exact h2a.symm.trans hc
      have hfn : ((initFold cfg).1 t).free_next = none := by
        have h1a : Seg (initFold cfg).1 (initFold cfg).2.1 (freeIdxs cfg) none := h1
        exact seg_last_none h1a hlast
      have hid : upd (initFold cfg).1 t { (initFold cfg).1 t with free_next := none }
          = (initFold cfg).1 := by
        rw [pi_freenext_id _ hfn]
        exact upd_id _ _
      rw [hmi, hid]
      exact ⟨h1, h3, h4⟩

/-- All fields of a descriptor except the free-list link are zero. -/
def ZeroButLink (p : PageInfo) : Prop :=
  p.refcount = 0 ∧ p.home = RRef.null ∧ p.homenext = none ∧
    p.homelist = none ∧ p.shared = 0

lemma zbl_refcount (p : PageInfo) (h : ZeroButLink p) :
    ZeroButLink { p with refcount := 0 } :=
  ⟨rfl, h.2.1, h.2.2.1, h.2.2.2.1, h.2.2.2.2⟩

lemma zbl_freenext (p : PageInfo) (x : Option Nat) (h : ZeroButLink p) :
    ZeroButLink { p with free_next := x } :=
  ⟨h.1, h.2.1, h.2.2.1, h.2.2.2.1, h.2.2.2.2⟩

lemma zbl_upd (d : Nat → PageInfo) (x : Nat) (v : PageInfo)
    (hall : ∀ j, ZeroButLink (d j)) (hv : ZeroButLink v) :
    ∀ j, ZeroButLink (upd d x v j) := by
  intro j
  by_cases hj : j = x
  · subst hj
    rw [upd_same]
    exact hv
  · rw [upd_ne _ x _ hj]
    exact hall j

lemma initStep_zerobutlink (cfg : MemCfg)
    (st : (Nat → PageInfo) × Option Nat × Option Nat) (i : Nat)
    (h : ∀ j, ZeroButLink (st.1 j)) :
    ∀ j, ZeroButLink ((initStep cfg st i).1 j) := by
  unfold initStep
  by_cases hc : i < cfg.basePages ∨ cfg.resEnd ≤ i
  · rw [if_pos hc]
    have h1 : ∀ j, ZeroButLink (upd st.1 i { st.1 i with refcount := 0 } j) :=
      zbl_upd _ i _ h (zbl_refcount _ (h i))
    cases hc2 : st.2.2 with
    | none => exact h1
    | some t =>
        exact zbl_upd _ t _ h1 (zbl_freenext _ _ (h1 t))
  · rw [if_neg hc]
    exact h

lemma foldl_zerobutlink (cfg : MemCfg) :
    ∀ (L : List Nat) (st : (Nat → PageInfo) × Option Nat × Option Nat),
      (∀ j, ZeroButLink (st.1 j)) →
      ∀ j, ZeroButLink ((L.foldl (initStep cfg) st).1 j) := by
  intro L
  induction L with
  | nil => intro st h j; exact h j
  | cons i L2 ih =>
      intro st h j
      rw [List.foldl_cons]
      exact ih (initStep cfg st i) (initStep_zerobutlink cfg st i h) j

/-- Every descriptor written by mem_init is zero apart from its link. -/
lemma mem_init_zerobutlink (cfg : MemCfg) :
    ∀ j, ZeroButLink ((mem_init cfg).desc j) := by
  have hall : ∀ j, ZeroButLink ((initFold cfg).1 j) :=
    foldl_zerobutlink cfg _ _ (fun _ => ⟨rfl, rfl, rfl, rfl, rfl⟩)
  cases hc : (initFold cfg).2.2 with
  | none =>
      have hmi : mem_init cfg
          = { desc := (initFold cfg).1, freelist := (initFold cfg).2.1 } := by
        unfold mem_init
        rw [hc]
      rw [hmi]
      exact hall
  | some t =>
      have hmi : mem_init cfg
          = { desc := upd (initFold cfg).1 t { (initFold cfg).1 t with free_next := none },
              freelist := (initFold cfg).2.1 } := by
        unfold mem_init
        rw [hc]
      rw [hmi]
      exact zbl_upd _ t _ hall (zbl_freenext _ _ (hall t))

/-- Membership in the mem_init free list: exactly the in-range frames
above 1 that are below base memory or past the reserved range. -/
lemma freeIdxs_mem (cfg : MemCfg) (i : Nat) :
    i ∈ freeIdxs cfg ↔ 2 ≤ i ∧ i < cfg.npage ∧ (i < cfg.basePages ∨ cfg.resEnd ≤ i) := by
  unfold freeIdxs
  rw [List.mem_filter, List.mem_range'_1]
  constructor
  · rintro ⟨⟨hl, hr⟩, hd⟩
    have := of_decide_eq_true hd
    exact ⟨hl, by omega, this⟩
  · rintro ⟨hl, hr, hc⟩
    exact ⟨⟨hl, by omega⟩, decide_eq_true hc⟩

/-- The mem_init free list is threaded in ascending frame order. -/
lemma freeIdxs_sorted (cfg : MemCfg) : List.Pairwise (· < ·) (freeIdxs cfg) :=
  List.Pairwise.sublist (List.filter_sublist _) (List.pairwise_lt_range' _ _ _ Nat.one_pos)

/-- A pointwise store that does not change a field leaves every
projection of that field unchanged. -/
lemma upd_preserves {β : Type} (d : Nat → PageInfo) (x : Nat) (v : PageInfo)
    (f : PageInfo → β) (hf : f v = f (d x)) :
    ∀ j, f (upd d x v j) = f (d j) := by
  intro j
  by_cases hj : j = x
  · subst hj
    rw [upd_same]
    exact hf
  · rw [upd_ne _ x _ hj]

lemma nodup_length_le (l : List Nat) (n : Nat) (hnd : l.Nodup)
    (hb : ∀ i ∈ l, i < n) : l.length ≤ n := by
  have hsub : l ⊆ List.range n := fun x hx => List.mem_range.mpr (hb x hx)
  have := (List.subperm_of_subset hnd hsub).length_le
  simpa using this

/-- A well-formed bucket chain whose entries all mismatch `rr` passes
the duplicate scan of mem_rrtrack. -/
lemma scanChk_ok {d : Nat → PageInfo} {addr : Nat} {rr : RRef} :
    ∀ (l : List Nat) (fuel : Nat) (h : Option Nat),
      HSeg d h l → l.length ≤ fuel →
      (∀ j ∈ l, (d j).home.addr = addr ∧ (d j).home ≠ rr) →
      scanChk d addr rr fuel h = true := by
  intro l
  induction l with
  | nil =>
      intro fuel h hseg _ _
      have hn : h = none := hseg
      subst hn
      cases fuel <;> rfl
  | cons j l2 ih =>
      intro fuel h hseg hlen hok
      obtain ⟨hj, hrest⟩ := hseg
      subst hj
      cases fuel with
      | zero => simp at hlen
      | succ f =>
          have h1 := (hok j (by simp)).1
          have h2 := (hok j (by simp)).2
          show (decide ((d j).home.addr = addr) && decide ((d j).home ≠ rr) &&
            scanChk d addr rr f (d j).homenext) = true
          rw [decide_eq_true h1, decide_eq_true h2,
            ih f _ hrest (by simpa using Nat.lt_succ_iff.mp (Nat.lt_of_lt_of_le (by simp) hlen))
              (fun x hx => hok x (by simp [hx]))]
          rfl

/-- A well-formed bucket chain with no entry equal to `rr` makes the
mem_rrlookup scan return NULL. -/
lemma lookupScan_miss {d : Nat → PageInfo} {addr : Nat} {rr : RRef} :
    ∀ (l : List Nat) (fuel : Nat) (h : Option Nat),
      HSeg d h l → l.length ≤ fuel →
      (∀ j ∈ l, (d j).home.addr = addr ∧ (d j).home ≠ rr) →
      lookupScan d addr rr fuel h = some none := by
  intro l
  induction l with
  | nil =>
      intro fuel h hseg _ _
      have hn : h = none := hseg
      subst hn
      cases fuel <;> rfl
  | cons j l2 ih =>
      intro fuel h hseg hlen hok
      obtain ⟨hj, hrest⟩ := hseg
      subst hj
      cases fuel with
      | zero => simp at hlen
      | succ f =>
          have h1 := (hok j (by simp)).1
          have h2 := (hok j (by simp)).2
          show lookupScan d addr rr (f+1) (some j) = some none
          unfold lookupScan
          rw [if_neg (by simp [h1]), if_neg h2]
          exact ih f _ hrest (by simpa using Nat.lt_succ_iff.mp (Nat.lt_of_lt_of_le (by simp) hlen))
            (fun x hx => hok x (by simp [hx]))

/-- The lookup scan only reads `home` and `homenext`: two descriptor
arrays agreeing on those fields scan identically. -/
lemma lookupScan_congr {d d2 : Nat → PageInfo} {addr : Nat} {rr : RRef}
    (hh : ∀ j, (d2 j).home = (d j).home ∧ (d2 j).homenext = (d j).homenext) :
    ∀ (fuel : Nat) (h : Option Nat),
      lookupScan d2 addr rr fuel h = lookupScan d addr rr fuel h := by
  intro fuel
  induction fuel with
  | zero => intro h; cases h <;> rfl
  | succ f ih =>
      intro h
      cases h with
      | none => rfl
      | some j =>
          show lookupScan d2 addr rr (f+1) (some j) = lookupScan d addr rr (f+1) (some j)
          unfold lookupScan
          rw [(hh j).1, (hh j).2, ih]

/-- Seg is decidable, so concrete chains can be checked by evaluation. -/
def segDec (d : Nat → PageInfo) : (l : List Nat) → (h e : Option Nat) → Decidable (Seg d h l e)
  | [], h, e => inferInstanceAs (Decidable (h = e))
  | i :: l, h, e =>
      have : Decidable (Seg d ((d i).free_next) l e) := segDec d l _ e
      inferInstanceAs (Decidable (h = some i ∧ Seg d ((d i).free_next) l e))

instance (d : Nat → PageInfo) (h e : Option Nat) (l : List Nat) : Decidable (Seg d h l e) :=
  segDec d l h e

/-- HSeg is decidable, so concrete buckets can be checked by evaluation. -/
def hsegDec (d : Nat → PageInfo) : (l : List Nat) → (h : Option Nat) → Decidable (HSeg d h l)
  | [], h => inferInstanceAs (Decidable (h = none))
  | j :: l, h =>
      have : Decidable (HSeg d ((d j).homenext) l) := hsegDec d l _
      inferInstanceAs (Decidable (h = some j ∧ HSeg d ((d j).homenext) l))

instance (d : Nat → PageInfo) (h : Option Nat) (l : List Nat) : Decidable (HSeg d h l) :=
  hsegDec d l h

/-- The successful branch of mem_alloc, as an equation. -/
lemma mem_alloc_some (s : MemState) (i : Nat) (hf : s.freelist = some i) :
    mem_alloc s = some (some i,
      { desc := upd s.desc i { s.desc i with home := RRef.null, shared := 0 },
        freelist := (s.desc i).free_next }) := by
  unfold mem_alloc
  rw [hf]

/-! ### Claim theorems -/

/-- Claim C1 (code bug).  The claim says mem_alloc on an empty free list
returns NotAvailable (NULL) and fails cleanly without faulting.  The code
does leave the list and the descriptors alone and would return NULL, but
the stores `p->home = 0; p->shared = 0` (kern/mem.c:106-107) sit outside
the `if (p != NULL)` guard, so with an empty list they write through the
NULL pointer — the very state mem_check exercises after stealing the free
list.  In the model that call faults (`none`) instead of returning a clean
NULL result. -/
theorem mem_alloc_empty_null_deref :
    emptyFL.freelist = none ∧ mem_alloc emptyFL = none :=
  ⟨rfl, rfl⟩

/-- Claim C4 counterexample.  In a state whose free-list head descriptor
carries a nonzero home reference, mem_alloc changes that descriptor's
`home` field (it stores 0 into it), so its only effect is not the
free-list unlink. -/
theorem mem_alloc_clears_home_cex :
    mem_alloc sC4 = some (some 2, sC4After) ∧
    (sC4.desc 2).home = ⟨1, 12288⟩ ∧
    (sC4After.desc 2).home ≠ (sC4.desc 2).home :=
  ⟨rfl, rfl, by decide⟩

/-- Claim C4 (amended).  On a non-empty free list, mem_alloc removes the
head frame `i` and additionally clears the returned descriptor's `home`
and `shared` fields (kern/mem.c:106-107); everything else is untouched:
every other descriptor is unchanged, no reference count changes, and no
free-list link field changes (even the stale `free_next` of `i`). -/
theorem mem_alloc_frame (s : MemState) (i : Nat) (h : s.freelist = some i) :
    ∃ s1, mem_alloc s = some (some i, s1) ∧
      s1.freelist = (s.desc i).free_next ∧
      s1.desc i = { s.desc i with home := RRef.null, shared := 0 } ∧
      (∀ j, j ≠ i → s1.desc j = s.desc j) ∧
      (∀ j, (s1.desc j).refcount = (s.desc j).refcount) ∧
      (∀ j, (s1.desc j).free_next = (s.desc j).free_next) ∧
      (∀ j, (s1.desc j).homenext = (s.desc j).homenext) ∧
      (∀ j, (s1.desc j).homelist = (s.desc j).homelist) := by
  refine ⟨_, mem_alloc_some s i h, rfl, upd_same _ _ _, ?_, ?_, ?_, ?_, ?_⟩
  · intro j hj
    exact upd_ne _ i _ hj
  · exact upd_preserves s.desc i _ PageInfo.refcount rfl
  · exact upd_preserves s.desc i _ PageInfo.free_next rfl
  · exact upd_preserves s.desc i _ PageInfo.homenext rfl
  · exact upd_preserves s.desc i _ PageInfo.homelist rfl

/-- Claim C4 witness: the amended frame property evaluated on sC4. -/
theorem mem_alloc_frame_witness :
    sC4.freelist = some 2 ∧
    (∃ s1, mem_alloc sC4 = some (some 2, s1) ∧
      s1.freelist = (sC4.desc 2).free_next ∧
      s1.desc 2 = { sC4.desc 2 with home := RRef.null, shared := 0 } ∧
      (∀ j, j ≠ 2 → s1.desc j = sC4.desc j) ∧
      (∀ j, (s1.desc j).refcount = (sC4.desc j).refcount) ∧
      (∀ j, (s1.desc j).free_next = (sC4.desc j).free_next) ∧
      (∀ j, (s1.desc j).homenext = (sC4.desc j).homenext) ∧
      (∀ j, (s1.desc j).homelist = (sC4.desc j).homelist)) :=
  ⟨rfl, mem_alloc_frame sC4 2 rfl⟩

/-- Claim C5.  After mem_init, the free list is exactly `freeIdxs cfg` —
the frames other than 0 and 1 that lie below base memory or at/after the
end of the reserved range (I/O hole, kernel image, metadata array) —
threaded in ascending order and NULL-terminated (`Seg ... none`), with
every listed descriptor zeroed (refcount 0, no home, no bucket links). -/
theorem mem_init_freelist_spec (cfg : MemCfg) :
    Seg (mem_init cfg).desc (mem_init cfg).freelist (freeIdxs cfg) none ∧
    (freeIdxs cfg).Nodup ∧
    List.Pairwise (· < ·) (freeIdxs cfg) ∧
    (∀ i, i ∈ freeIdxs cfg ↔ 2 ≤ i ∧ i < cfg.npage ∧ (i < cfg.basePages ∨ cfg.resEnd ≤ i)) ∧
    (∀ i ∈ freeIdxs cfg,
      ((mem_init cfg).desc i).refcount = 0 ∧
      ((mem_init cfg).desc i).home = RRef.null ∧
      ((mem_init cfg).desc i).homenext = none ∧
      ((mem_init cfg).desc i).homelist = none ∧
      ((mem_init cfg).desc i).shared = 0) := by
  refine ⟨(mem_init_spec cfg).1, (mem_init_spec cfg).2.1, freeIdxs_sorted cfg,
    freeIdxs_mem cfg, ?_⟩
  intro i _
  exact mem_init_zerobutlink cfg i

/-- Claim C3 counterexample.  From the initialized store on cfgW, one
allocate reaches a state in which frame 2 is off the free list (the list
is exactly [3, 6, 7]) yet still has reference count 0: the dichotomy
"on the free list with refcount 0, or allocated with refcount ≥ 1" fails,
because mem_alloc leaves refcounts to the caller. -/
theorem alloc_refcount_zero_cex :
    Reach cfgW allocOne ∧
    Seg allocOne.desc allocOne.freelist [3, 6, 7] none ∧
    (2 ∉ [3, 6, 7] ∧ ¬1 ≤ (allocOne.desc 2).refcount) :=
  ⟨@Reach.alloc cfgW (mem_init cfgW) allocOne 2 Reach.init rfl, by decide, by decide⟩

/-- Claim C3 (amended).  In every state reachable from the initialized
store by allocate/free sequences (free applied to an in-range frame not
currently on the free list, refcount 0), the free list is a
duplicate-free NULL-terminated chain of in-range frames ≥ 2; every
reference count in the store is 0 (the two operations never change one,
so allocated frames have refcount 0, not ≥ 1, until the caller
increments); every home bucket is empty, so free frames are unreachable
from any bucket; and free count + allocated count = total page count. -/
theorem reach_partition (cfg : MemCfg) (s : MemState) (h : Reach cfg s) :
    ∃ l : List Nat,
      Seg s.desc s.freelist l none ∧ l.Nodup ∧
      (∀ i ∈ l, 2 ≤ i ∧ i < cfg.npage) ∧
      (∀ i, (s.desc i).refcount = 0) ∧
      (∀ i, (s.desc i).homelist = none) ∧
      l.length + (cfg.npage - l.length) = cfg.npage := by
  induction h with
  | init =>
      refine ⟨freeIdxs cfg, (mem_init_spec cfg).1, (mem_init_spec cfg).2.1, ?_, ?_, ?_, ?_⟩
      · intro i hi
        have := (freeIdxs_mem cfg i).mp hi
        exact ⟨this.1, this.2.1⟩
      · intro i
        exact (mem_init_zerobutlink cfg i).1
      · intro i
        exact (mem_init_zerobutlink cfg i).2.2.2.1
      · have hlen : (freeIdxs cfg).length ≤ cfg.npage :=
          nodup_length_le _ _ (mem_init_spec cfg).2.1
            (fun i hi => ((freeIdxs_mem cfg i).mp hi).2.1)
        omega
  | @alloc s0 s1 i hr halloc ih =>
      obtain ⟨l, hseg, hnd, hbound, hrc, hhl, _⟩ := ih
      cases hf : s0.freelist with
      | none =>
          rw [show mem_alloc s0 = none from by unfold mem_alloc; rw [hf]] at halloc
          exact absurd halloc (by simp)
      | some k =>
          rw [mem_alloc_some s0 k hf] at halloc
          simp only [Option.some.injEq, Prod.mk.injEq] at halloc
          obtain ⟨hk, hs1⟩ := halloc
          subst hk
          subst hs1
          rw [hf] at hseg
          cases l with
          | nil => exact absurd hseg (by simp [Seg])
          | cons x l2 =>
              obtain ⟨hx, hrest⟩ := hseg
              have hxk : x = k := by injection hx.symm
              subst hxk
              have hfn := upd_preserves s0.desc x
                { s0.desc x with home := RRef.null, shared := 0 } PageInfo.free_next rfl
              refine ⟨l2, ?_, (List.nodup_cons.mp hnd).2,
                (fun j hj => hbound j (by simp [hj])), ?_, ?_, ?_⟩
              · exact seg_congr (fun j _ => hfn j) hrest
              · intro j
                show (upd s0.desc x { s0.desc x with home := RRef.null, shared := 0 } j).refcount
                  = 0
                rw [upd_preserves s0.desc x
                  { s0.desc x with home := RRef.null, shared := 0 } PageInfo.refcount rfl j]
                exact hrc j
              · intro j
                show (upd s0.desc x { s0.desc x with home := RRef.null, shared := 0 } j).homelist
                  = none
                rw [upd_preserves s0.desc x
                  { s0.desc x with home := RRef.null, shared := 0 } PageInfo.homelist rfl j]
                exact hhl j
              · have hlen : l2.length ≤ cfg.npage :=
                  nodup_length_le _ _ (List.nodup_cons.mp hnd).2
                    (fun j hj => (hbound j (by simp [hj])).2)
                omega
  | @free s0 i l hr hseg hnotin h2i hin hrc0 ih =>
      obtain ⟨l0, hseg0, hnd0, hbound0, hrc, hhl, _⟩ := ih
      have hll : l0 = l := seg_det hseg0 hseg
      subst hll
      refine ⟨i :: l0, ⟨rfl, ?_⟩, List.nodup_cons.mpr ⟨hnotin, hnd0⟩, ?_, ?_, ?_, ?_⟩
      · have hh : ((mem_free i s0).desc i).free_next = s0.freelist := by
          show (upd s0.desc i { s0.desc i with free_next := s0.freelist } i).free_next
            = s0.freelist
          rw [upd_same]
        rw [hh]
        refine seg_congr ?_ hseg0
        intro j hj
        have hji : j ≠ i := fun hx => hnotin (hx ▸ hj)
        show (upd s0.desc i { s0.desc i with free_next := s0.freelist } j).free_next
          = (s0.desc j).free_next
        rw [upd_ne _ i _ hji]
      · intro x hx
        rcases List.mem_cons.mp hx with hx1 | hx2
        · subst hx1
          exact ⟨h2i, hin⟩
        · exact hbound0 x hx2
      · intro j
        show (upd s0.desc i { s0.desc i with free_next := s0.freelist } j).refcount = 0
        rw [upd_preserves s0.desc i
          { s0.desc i with free_next := s0.freelist } PageInfo.refcount rfl j]
        exact hrc j
      · intro j
        show (upd s0.desc i { s0.desc i with free_next := s0.freelist } j).homelist = none
        rw [upd_preserves s0.desc i
          { s0.desc i with free_next := s0.freelist } PageInfo.homelist rfl j]
        exact hhl j
      · have hlen : (i :: l0).length ≤ cfg.npage := by
          refine nodup_length_le _ _ (List.nodup_cons.mpr ⟨hnotin, hnd0⟩) ?_
          intro x hx
          rcases List.mem_cons.mp hx with hx1 | hx2
          · subst hx1; exact hin
          · exact (hbound0 x hx2).2
        omega

/-- Claim C3 witness: the amended invariant holds at the initialized
store on cfgW, a state reachable by the empty call sequence. -/
theorem reach_partition_witness :
    Reach cfgW (mem_init cfgW) ∧
    (∃ l : List Nat,
      Seg (mem_init cfgW).desc (mem_init cfgW).freelist l none ∧ l.Nodup ∧
      (∀ i ∈ l, 2 ≤ i ∧ i < cfgW.npage) ∧
      (∀ i, ((mem_init cfgW).desc i).refcount = 0) ∧
      (∀ i, ((mem_init cfgW).desc i).homelist = none) ∧
      l.length + (cfgW.npage - l.length) = cfgW.npage) :=
  ⟨Reach.init, reach_partition cfgW _ Reach.init⟩

/-- The insertion stores never touch a reference count. -/
lemma refcount_trackUpd (rr : RRef) (p hpi : Nat) (d : Nat → PageInfo) (j : Nat) :
    (trackUpd rr p hpi d j).refcount = (d j).refcount := by
  unfold trackUpd
  rw [upd_preserves (trackD2 rr p hpi d) hpi
    { trackD2 rr p hpi d hpi with homelist := some p } PageInfo.refcount rfl j]
  unfold trackD2
  rw [upd_preserves (trackD1 rr p d) p
    { trackD1 rr p d p with homenext := (trackD1 rr p d hpi).homelist }
    PageInfo.refcount rfl j]
  unfold trackD1
  rw [upd_preserves d p { d p with home := rr } PageInfo.refcount rfl j]

/-- After the insertion stores, the tracked descriptor's home is `rr`. -/
lemma home_trackUpd_p (rr : RRef) (p hpi : Nat) (d : Nat → PageInfo) :
    (trackUpd rr p hpi d p).home = rr := by
  unfold trackUpd
  rw [upd_preserves (trackD2 rr p hpi d) hpi
    { trackD2 rr p hpi d hpi with homelist := some p } PageInfo.home rfl p]
  unfold trackD2
  rw [upd_same]
  show (trackD1 rr p d p).home = rr
  unfold trackD1
  rw [upd_same]

/-- After the insertion stores, the bucket head is the tracked frame. -/
lemma homelist_trackUpd_hpi (rr : RRef) (p hpi : Nat) (d : Nat → PageInfo) :
    (trackUpd rr p hpi d hpi).homelist = some p := by
  unfold trackUpd
  rw [upd_same]

/-- Claim C2.  For a remote reference with a valid nonzero node and an
in-range bucket, and a trackable frame `p` (not 0/1, not the zero page,
outside the kernel image), in a state whose bucket chain for the
reference is a well-formed list not containing it: mem_rrtrack succeeds,
and mem_rrlookup then returns `p` with its reference count exactly one
larger than before the pair of calls (the increment is mem_incref, taken
under the lock on the hit). -/
theorem rrtrack_then_rrlookup (cfg : MemCfg) (rr : RRef) (p : Nat) (s : MemState)
    (l : List Nat)
    (hp1 : 1 < p) (hp2 : p < cfg.npage) (hp3 : p ≠ cfg.zeroPage)
    (hp4 : p < cfg.kernStart ∨ cfg.kernEnd < p)
    (hn1 : 0 < rr.node) (hn2 : rr.node ≤ cfg.maxNodes)
    (hb1 : 1 < mem_phys2pi rr.addr) (hb2 : mem_phys2pi rr.addr < cfg.npage)
    (hseg : HSeg s.desc ((s.desc (mem_phys2pi rr.addr)).homelist) l)
    (hlen : l.length ≤ cfg.npage)
    (hok : ∀ j ∈ l, (s.desc j).home.addr = rr.addr ∧ (s.desc j).home ≠ rr) :
    ∃ s1 s2, mem_rrtrack cfg rr p s = some s1 ∧
      mem_rrlookup cfg rr s1 = some (some p, s2) ∧
      (s2.desc p).refcount = (s.desc p).refcount + 1 := by
  have hscan := scanChk_ok l cfg.npage _ hseg hlen hok
  have htrack : mem_rrtrack cfg rr p s
      = some { s with desc := trackUpd rr p (mem_phys2pi rr.addr) s.desc } := by
    unfold mem_rrtrack
    rw [if_neg (not_not.mpr ⟨hp1, hp2⟩), if_neg hp3, if_neg (not_not.mpr hp4),
      if_neg (not_not.mpr ⟨hn1, hn2⟩), if_neg (not_not.mpr ⟨hb1, hb2⟩), hscan]
    rfl
  refine ⟨{ s with desc := trackUpd rr p (mem_phys2pi rr.addr) s.desc },
    mem_incref p { s with desc := trackUpd rr p (mem_phys2pi rr.addr) s.desc },
    htrack, ?_, ?_⟩
  · unfold mem_rrlookup
    rw [if_neg (not_not.mpr ⟨hn1, hn2⟩), if_neg (not_not.mpr ⟨hb1, hb2⟩)]
    have hbl : (trackUpd rr p (mem_phys2pi rr.addr) s.desc (mem_phys2pi rr.addr)).homelist
        = some p := homelist_trackUpd_hpi rr p _ s.desc
    show (match lookupScan (trackUpd rr p (mem_phys2pi rr.addr) s.desc) rr.addr rr cfg.npage
        ((trackUpd rr p (mem_phys2pi rr.addr) s.desc (mem_phys2pi rr.addr)).homelist) with
      | none => none
      | some none => some (none, { s with desc := trackUpd rr p (mem_phys2pi rr.addr) s.desc })
      | some (some j) => some (some j,
          mem_incref j { s with desc := trackUpd rr p (mem_phys2pi rr.addr) s.desc }))
      = some (some p, mem_incref p { s with desc := trackUpd rr p (mem_phys2pi rr.addr) s.desc })
    rw [hbl]
    obtain ⟨f, hfc⟩ : ∃ f, cfg.npage = f + 1 := ⟨cfg.npage - 1, by omega⟩
    rw [hfc]
    have hstep : lookupScan (trackUpd rr p (mem_phys2pi rr.addr) s.desc) rr.addr rr (f + 1)
        (some p) = some (some p) := by
      unfold lookupScan
      rw [if_neg (by rw [home_trackUpd_p]; simp), if_pos (home_trackUpd_p rr p _ s.desc)]
    rw [hstep]
  · show (upd (trackUpd rr p (mem_phys2pi rr.addr) s.desc) p
      { trackUpd rr p (mem_phys2pi rr.addr) s.desc p with
          refcount := (trackUpd rr p (mem_phys2pi rr.addr) s.desc p).refcount + 1 } p).refcount
      = (s.desc p).refcount + 1
    rw [upd_same]
    show (trackUpd rr p (mem_phys2pi rr.addr) s.desc p).refcount + 1
      = (s.desc p).refcount + 1
    rw [refcount_trackUpd]

/-- Claim C2 witness: track rrW on frame 2 of the initialized cfgW store
(bucket 3 empty), then look it up. -/
theorem rrtrack_then_rrlookup_witness :
    HSeg (mem_init cfgW).desc (((mem_init cfgW).desc (mem_phys2pi rrW.addr)).homelist) [] ∧
    (∃ s1 s2, mem_rrtrack cfgW rrW 2 (mem_init cfgW) = some s1 ∧
      mem_rrlookup cfgW rrW s1 = some (some 2, s2) ∧
      (s2.desc 2).refcount = ((mem_init cfgW).desc 2).refcount + 1) :=
  ⟨by decide,
    rrtrack_then_rrlookup cfgW rrW 2 (mem_init cfgW) [] (by decide) (by decide) (by decide)
      (by decide) (by decide) (by decide) (by decide) (by decide) (by decide) (by decide)
      (by decide)⟩

/-- Claim C8.  A lookup of a valid, in-range remote reference that no
entry of its (well-formed) bucket chain carries returns NULL (NotFound)
and the state — in particular every reference count — unchanged. -/
theorem rrlookup_untracked (cfg : MemCfg) (rr : RRef) (s : MemState) (l : List Nat)
    (hn1 : 0 < rr.node) (hn2 : rr.node ≤ cfg.maxNodes)
    (hb1 : 1 < mem_phys2pi rr.addr) (hb2 : mem_phys2pi rr.addr < cfg.npage)
    (hseg : HSeg s.desc ((s.desc (mem_phys2pi rr.addr)).homelist) l)
    (hlen : l.length ≤ cfg.npage)
    (hok : ∀ j ∈ l, (s.desc j).home.addr = rr.addr ∧ (s.desc j).home ≠ rr) :
    mem_rrlookup cfg rr s = some (none, s) := by
  unfold mem_rrlookup
  rw [if_neg (not_not.mpr ⟨hn1, hn2⟩), if_neg (not_not.mpr ⟨hb1, hb2⟩),
    lookupScan_miss l cfg.npage _ hseg hlen hok]

/-- A second concrete remote reference, with home bucket frame 2. -/
def rrW2 : RRef := ⟨1, 8192⟩

/-- Claim C8 witness: rrW2 was never tracked in the initialized cfgW
store, and its lookup returns NULL with the state unchanged. -/
theorem rrlookup_untracked_witness :
    HSeg (mem_init cfgW).desc (((mem_init cfgW).desc (mem_phys2pi rrW2.addr)).homelist) [] ∧
    mem_rrlookup cfgW rrW2 (mem_init cfgW) = some (none, mem_init cfgW) :=
  ⟨by decide,
    rrlookup_untracked cfgW rrW2 (mem_init cfgW) [] (by decide) (by decide) (by decide)
      (by decide) (by decide) (by decide) (by decide)⟩

/-- Claim C10.  mem_free only touches the free-list linkage: it sets the
list head to the freed frame and that frame's `free_next` to the old
head; every other descriptor and every non-link field (reference count,
home reference, bucket links) is unchanged.  Consequently a page whose
home reference is still tracked when it is freed is still returned by a
subsequent mem_rrlookup of that reference (which increments its count in
the freed state just as it would have before). -/
theorem mem_free_frame (cfg : MemCfg) (s : MemState) (i : Nat) :
    (mem_free i s).freelist = some i ∧
    (mem_free i s).desc i = { s.desc i with free_next := s.freelist } ∧
    (∀ j, j ≠ i → (mem_free i s).desc j = s.desc j) ∧
    (∀ j, ((mem_free i s).desc j).refcount = (s.desc j).refcount) ∧
    (∀ j, ((mem_free i s).desc j).home = (s.desc j).home) ∧
    (∀ j, ((mem_free i s).desc j).homenext = (s.desc j).homenext) ∧
    (∀ j, ((mem_free i s).desc j).homelist = (s.desc j).homelist) ∧
    (∀ rr p s2, mem_rrlookup cfg rr s = some (some p, s2) →
      mem_rrlookup cfg rr (mem_free i s) = some (some p, mem_incref p (mem_free i s))) := by
  have hagree : ∀ j, ((mem_free i s).desc j).home = (s.desc j).home ∧
      ((mem_free i s).desc j).homenext = (s.desc j).homenext := fun j =>
    ⟨upd_preserves s.desc i { s.desc i with free_next := s.freelist } PageInfo.home rfl j,
     upd_preserves s.desc i { s.desc i with free_next := s.freelist } PageInfo.homenext rfl j⟩
  have hhl : ∀ j, ((mem_free i s).desc j).homelist = (s.desc j).homelist := fun j =>
    upd_preserves s.desc i { s.desc i with free_next := s.freelist } PageInfo.homelist rfl j
  refine ⟨rfl, ?_, ?_, ?_, fun j => (hagree j).1, fun j => (hagree j).2, hhl, ?_⟩
  · show upd s.desc i { s.desc i with free_next := s.freelist } i
      = { s.desc i with free_next := s.freelist }
    rw [upd_same]
  · intro j hj
    show upd s.desc i { s.desc i with free_next := s.freelist } j = s.desc j
    rw [upd_ne _ i _ hj]
  · exact fun j =>
      upd_preserves s.desc i { s.desc i with free_next := s.freelist } PageInfo.refcount rfl j
  · intro rr p s2 h
    unfold mem_rrlookup at h ⊢
    by_cases hc1 : ¬(0 < rr.node ∧ rr.node ≤ cfg.maxNodes)
    · rw [if_pos hc1] at h
      exact absurd h (by simp)
    · rw [if_neg hc1] at h ⊢
      by_cases hc2 : ¬(1 < mem_phys2pi rr.addr ∧ mem_phys2pi rr.addr < cfg.npage)
      · rw [if_pos hc2] at h
        exact absurd h (by simp)
      · rw [if_neg hc2] at h ⊢
        have hcong := @lookupScan_congr s.desc (mem_free i s).desc rr.addr rr hagree
          cfg.npage ((s.desc (mem_phys2pi rr.addr)).homelist)
        cases hscan : lookupScan s.desc rr.addr rr cfg.npage
            ((s.desc (mem_phys2pi rr.addr)).homelist) with
        | none =>
            rw [hscan] at h
            exact absurd h (by simp)
        | some o =>
            cases o with
            | none =>
                rw [hscan] at h
                simp at h
            | some j =>
                rw [hscan] at h
                simp only [Option.some.injEq, Prod.mk.injEq] at h
                obtain ⟨hjp, _⟩ := h
                subst hjp
                rw [hhl (mem_phys2pi rr.addr), hcong, hscan]

/-- Claim C10 witness: in sTr frame 2 is tracked under rrW; freeing
frame 3 leaves the lookup of rrW returning frame 2. -/
theorem mem_free_frame_witness :
    mem_rrlookup cfgW rrW sTr = some (some 2, mem_incref 2 sTr) ∧
    mem_rrlookup cfgW rrW (mem_free 3 sTr) = some (some 2, mem_incref 2 (mem_free 3 sTr)) :=
  ⟨rfl, (mem_free_frame cfgW sTr 3).2.2.2.2.2.2.2 rrW 2 (mem_incref 2 sTr) rfl⟩

/-- A divide-error trap frame taken in kernel mode (cs low bits 0). -/
def tfDiv : Trapframe := ⟨T_DIVIDE, 8⟩

/-- A context with the recovery hook installed, as during trap_check. -/
def cxRec : TrapCtx := ⟨true, false, false, 1, 1, 9⟩

/-- An unrecognized trap (vector 21) taken in user mode (cs low bits 3). -/
def tfUnk : Trapframe := ⟨21, 27⟩

/-- A context with no recovery hook whose current process is homed on
node 2 while this is node 1, with the network device on IRQ 9. -/
def cxMig : TrapCtx := ⟨false, false, false, 2, 1, 9⟩

/-- Claim C6.  Whenever the processor's recovery hook is installed, the
dispatcher performs no normal routing at all — nothing from the
trap-number switch, no device handling, no migration, no return to
parent, no fatal termination ever appears in the trace — and unless the
trap is a page fault that pmap_pagefault resolves and resumes itself
(the one step the source places before the hook, kern/trap.c:189-190),
the trace is exactly the page-fault offer followed by the hook
invocation: the hook precedes all other handling. -/
theorem trap_recover_first (tf : Trapframe) (cx : TrapCtx) (hrec : cx.recover = true) :
    (∀ a ∈ trapTrace tf cx, a = Act.pmapPagefault ∨ a = Act.recoverHook) ∧
    (¬(tf.trapno = T_PGFLT ∧ cx.pfResolved = true) →
      trapTrace tf cx
        = (if tf.trapno = T_PGFLT then [Act.pmapPagefault] else []) ++ [Act.recoverHook]) := by
  constructor
  · intro a ha
    unfold trapTrace at ha
    by_cases hpf : tf.trapno = T_PGFLT ∧ cx.pfResolved = true
    · rw [if_pos hpf] at ha
      rw [if_pos hpf.1] at ha
      simp at ha
      exact Or.inl ha
    · rw [if_neg hpf, hrec] at ha
      rw [if_pos rfl] at ha
      by_cases h14 : tf.trapno = T_PGFLT
      · rw [if_pos h14] at ha
        simp at ha
        rcases ha with h | h
        · exact Or.inl h
        · exact Or.inr h
      · rw [if_neg h14] at ha
        simp at ha
        exact Or.inr ha
  · intro hnpf
    unfold trapTrace
    rw [if_neg hnpf, hrec, if_pos rfl]

/-- Claim C6 witness: a kernel-mode divide error with the hook installed
is handed to the hook and nothing else. -/
theorem trap_recover_first_witness :
    cxRec.recover = true ∧
    (∀ a ∈ trapTrace tfDiv cxRec, a = Act.pmapPagefault ∨ a = Act.recoverHook) ∧
    (¬(tfDiv.trapno = T_PGFLT ∧ cxRec.pfResolved = true) →
      trapTrace tfDiv cxRec
        = (if tfDiv.trapno = T_PGFLT then [Act.pmapPagefault] else []) ++ [Act.recoverHook]) :=
  ⟨rfl, (trap_recover_first tfDiv cxRec rfl).1, (trap_recover_first tfDiv cxRec rfl).2⟩

/-- Claim C7.  A user-mode trap that matches none of the recognized
vectors (system call, local timer, keyboard, serial, spurious, the
network device's dynamic IRQ gate), is not resolved as a page fault, and
finds no recovery hook, is never fatal: after the possible page-fault
offer, the dispatcher hands the process to net_migrate when the
process's recorded home node differs from this node, and otherwise
returns to the parent with a failure indication (proc_ret). -/
theorem trap_user_unrecognized (tf : Trapframe) (cx : TrapCtx)
    (huser : userCS tf.cs = true) (hrec : cx.recover = false)
    (h1 : tf.trapno ≠ T_SYSCALL) (h2 : tf.trapno ≠ T_LTIMER)
    (h3 : tf.trapno ≠ T_IRQ0 + IRQ_KBD) (h4 : tf.trapno ≠ T_IRQ0 + IRQ_SERIAL)
    (h5 : tf.trapno ≠ T_IRQ0 + IRQ_SPURIOUS) (h6 : tf.trapno ≠ T_IRQ0 + cx.e100irq)
    (h7 : ¬(tf.trapno = T_PGFLT ∧ cx.pfResolved = true)) :
    trapTrace tf cx
      = (if tf.trapno = T_PGFLT then [Act.pmapPagefault] else []) ++
        (if cx.homeNode ≠ cx.netNode then [Act.netMigrate cx.homeNode] else [Act.procRet]) ∧
    Act.panicked ∉ trapTrace tf cx := by
  have htr : trapTrace tf cx
      = (if tf.trapno = T_PGFLT then [Act.pmapPagefault] else []) ++
        (if cx.homeNode ≠ cx.netNode then [Act.netMigrate cx.homeNode] else [Act.procRet]) := by
    unfold trapTrace
    rw [if_neg h7, hrec]
    rw [if_neg Bool.false_ne_true]
    unfold switchPart
    rw [if_neg h1, if_neg h2, if_neg h3, if_neg h4, if_neg h5]
    unfold afterSwitch
    rw [if_neg h6, if_pos huser]
  refine ⟨htr, ?_⟩
  rw [htr]
  by_cases hpf : tf.trapno = T_PGFLT
  · rw [if_pos hpf]
    by_cases hmig : cx.homeNode ≠ cx.netNode
    · rw [if_pos hmig]; simp
    · rw [if_neg hmig]; simp
  · rw [if_neg hpf]
    by_cases hmig : cx.homeNode ≠ cx.netNode
    · rw [if_pos hmig]; simp
    · rw [if_neg hmig]; simp

/-- Claim C7 witness: an unrecognized vector-21 user trap on the wrong
node is migrated, never fatal. -/
theorem trap_user_unrecognized_witness :
    userCS tfUnk.cs = true ∧
    (trapTrace tfUnk cxMig
      = (if tfUnk.trapno = T_PGFLT then [Act.pmapPagefault] else []) ++
        (if cxMig.homeNode ≠ cxMig.netNode then [Act.netMigrate cxMig.homeNode]
         else [Act.procRet]) ∧
      Act.panicked ∉ trapTrace tfUnk cxMig) :=
  ⟨rfl,
    trap_user_unrecognized tfUnk cxMig rfl rfl (by decide) (by decide) (by decide)
      (by decide) (by decide) (by decide) (by decide)⟩

/-- Per-vector check: a populated gate has privilege 3 exactly at the
breakpoint, overflow and system-call vectors, and 0 everywhere else. -/
def idtDplChk (w : Fin 256) : Bool :=
  match trap_idt w with
  | none => true
  | some g =>
      (decide (g.dpl = 3)
        == decide (w.val = T_BRKPT ∨ w.val = T_OFLOW ∨ w.val = T_SYSCALL)) &&
      decide (g.dpl = 0 ∨ g.dpl = 3)

/-- Claim C9.  In the table built by trap_init_idt, a populated gate is
invokable from user privilege (DPL 3) exactly when its vector is the
breakpoint, overflow or system-call vector; every other populated gate
requires kernel privilege (DPL 0). -/
theorem idt_user_dpl (v : Fin 256) (g : Gatedesc) (h : trap_idt v = some g) :
    (g.dpl = 3 ↔ (v.val = T_BRKPT ∨ v.val = T_OFLOW ∨ v.val = T_SYSCALL)) ∧
    (g.dpl = 0 ∨ g.dpl = 3) := by
  have hb : ∀ w : Fin 256, idtDplChk w = true := by decide
  have hv := hb v
  unfold idtDplChk at hv
  rw [h] at hv
  simp only [Bool.and_eq_true, beq_iff_eq, decide_eq_decide, decide_eq_true_eq] at hv
  exact hv

/-- Claim C9 witness: the breakpoint vector carries a DPL-3 gate. -/
theorem idt_user_dpl_witness :
    trap_idt ⟨T_BRKPT, by decide⟩ = some ⟨false, CPU_GDT_KCODE, Handler.tbrkpt, 3⟩ ∧
    (((3 : Nat) = 3 ↔ (T_BRKPT = T_BRKPT ∨ T_BRKPT = T_OFLOW ∨ T_BRKPT = T_SYSCALL)) ∧
      ((3 : Nat) = 0 ∨ (3 : Nat) = 3)) :=
  ⟨rfl, idt_user_dpl ⟨T_BRKPT, by decide⟩ ⟨false, CPU_GDT_KCODE, Handler.tbrkpt, 3⟩ rfl⟩
